import Mathlib

set_option maxHeartbeats 1000000

/-!
Verification development for the blogr theme engine
(crates blogr-themes and the theme command layer of blogr-cli).

The embedding models:
  * toml::Value as the inductive TomlValue (floats carried as their raw
    bit pattern, since no claim inspects float arithmetic);
  * ConfigOption and ThemeInfo from blogr-themes/src/lib.rs, with the
    HashMap config_schema embedded as an enumeration, i.e. a list of
    (option-name, ConfigOption) pairs — claims quantify over enumeration
    orders where the iteration order of the HashMap could matter;
  * ThemeTemplates with its two constructors from blogr-themes/src/lib.rs;
  * the registry functions get_all_themes / get_theme;
  * the project theme configuration (config.theme in blogr-cli) as a
    name field plus a map String -> Option TomlValue, and the merge
    performed by handle_set in blogr-cli/src/commands/theme.rs as
    explicit state passing (the returned config is the one the code
    saves; on the error path the incoming config is returned unchanged,
    since the code returns before any mutation or save).

Rust str::to_lowercase is embedded as character-wise Char.toLower
(the theme catalog names are ASCII, where the two agree).
-/

/-- Embedding of toml::Value, the open value union stored in a theme's
config schema and in the project's theme config. Floats are carried as
their IEEE-754 bit pattern so that equality is decidable; no claim
computes with them. -/
inductive TomlValue where
  | str (s : String)
  | int (n : Int)
  | boolean (b : Bool)
  | float (bits : Nat)
  | datetime (s : String)
  | array (elems : List TomlValue)
  | table (pairs : List (String × TomlValue))

/-- ConfigOption from blogr-themes/src/lib.rs: a typed default value plus
a documentation string. (lib.rs names the value field `value`; the
command layer in theme.rs accesses the same default as `.option`.) -/
structure ConfigOption where
  value : TomlValue
  description : String

/-- ThemeInfo from blogr-themes/src/lib.rs. The HashMap config_schema is
embedded as a list of (option-name, ConfigOption) pairs (an enumeration
of the map; keys of a HashMap are unique). -/
structure ThemeInfo where
  name : String
  version : String
  author : String
  description : String
  config_schema : List (String × ConfigOption)

/-- ThemeTemplates from blogr-themes/src/lib.rs: an ordered sequence of
(template-name, template-source) pairs. -/
structure ThemeTemplates where
  templates : List (String × String)
  deriving DecidableEq, Repr

/-- ThemeTemplates::new — the bundle holding just the base template. -/
def ThemeTemplates.new (base_template_name base_template : String) : ThemeTemplates :=
  ⟨[(base_template_name, base_template)]⟩

/-- ThemeTemplates::with_template — push one more template at the end. -/
def ThemeTemplates.with_template (self : ThemeTemplates) (name template : String) :
    ThemeTemplates :=
  ⟨self.templates ++ [(name, template)]⟩

/-- IntoIterator for ThemeTemplates: iteration yields the templates list
in order. -/
def ThemeTemplates.toList (self : ThemeTemplates) : List (String × String) :=
  self.templates

/-- A sequence of with_template calls, applied left to right. -/
def ThemeTemplates.withTemplates (self : ThemeTemplates) (l : List (String × String)) :
    ThemeTemplates :=
  l.foldl (fun acc p => acc.with_template p.1 p.2) self

/-- Embedding of Rust str::to_lowercase, character-wise (the catalog
names are ASCII, where per-character lowering agrees with Rust). -/
def lowercase (s : String) : String :=
  ⟨s.data.map Char.toLower⟩

/-- Modelled from the spec: the built-in theme catalog. The concrete
theme modules (obsidian.rs, minimal_retro.rs, ...) are not part of the
excerpt; only their module names appear in blogr-themes/src/lib.rs and
the spec names "minimal-retro" and "Obsidian"/"obsidian" in its
examples. Each ThemeInfo here carries the kebab-cased module name;
version/author/description and the per-theme schema are immaterial to
every claim and are left as placeholder metadata. -/
def minimalRetroTheme : ThemeInfo :=
  { name := "minimal-retro", version := "1.0.0", author := "author"
    description := "Minimal retro theme", config_schema := [] }

/-- Modelled from the spec: see minimalRetroTheme. -/
def obsidianTheme : ThemeInfo :=
  { name := "obsidian", version := "1.0.0", author := "author"
    description := "Obsidian theme", config_schema := [] }

/-- Modelled from the spec: see minimalRetroTheme. -/
def terminalCandyTheme : ThemeInfo :=
  { name := "terminal-candy", version := "1.0.0", author := "author"
    description := "Terminal candy theme", config_schema := [] }

/-- Modelled from the spec: see minimalRetroTheme. -/
def darkMinimalTheme : ThemeInfo :=
  { name := "dark-minimal", version := "1.0.0", author := "author"
    description := "Dark minimal theme", config_schema := [] }

/-- Modelled from the spec: see minimalRetroTheme. -/
def musashiTheme : ThemeInfo :=
  { name := "musashi", version := "1.0.0", author := "author"
    description := "Musashi theme", config_schema := [] }

/-- Modelled from the spec: see minimalRetroTheme. -/
def slatePortfolioTheme : ThemeInfo :=
  { name := "slate-portfolio", version := "1.0.0", author := "author"
    description := "Slate portfolio theme", config_schema := [] }

/-- Modelled from the spec: see minimalRetroTheme. -/
def typewriterTheme : ThemeInfo :=
  { name := "typewriter", version := "1.0.0", author := "author"
    description := "Typewriter theme", config_schema := [] }

/-- Modelled from the spec: see minimalRetroTheme. -/
def brutjaTheme : ThemeInfo :=
  { name := "brutja", version := "1.0.0", author := "author"
    description := "Brutja theme", config_schema := [] }

/-- get_all_themes from blogr-themes/src/lib.rs: the fixed catalog, in
source order. Each theme is represented by the ThemeInfo its info()
method returns (themes are stateless; info() is a constant function of
the theme, per the spec). -/
def get_all_themes : List ThemeInfo :=
  [minimalRetroTheme, obsidianTheme, terminalCandyTheme, darkMinimalTheme,
   musashiTheme, slatePortfolioTheme, typewriterTheme, brutjaTheme]

/-- get_theme from blogr-themes/src/lib.rs: the first theme whose
lowercased info().name equals the lowercased query. -/
def get_theme (name : String) : Option ThemeInfo :=
  get_all_themes.find? (fun theme => lowercase theme.name == lowercase name)

/-- get_theme_by_name from blogr-themes/src/lib.rs. -/
def get_theme_by_name (name : String) : Option ThemeInfo :=
  get_theme name

/-- The project's persisted theme section (config.theme in blogr-cli):
the selected theme name plus the HashMap from option name to live
toml::Value, embedded as a map into Option. -/
structure ThemeConfig where
  name : String
  config : String → Option TomlValue

/-- HashMap::entry(k) + Entry::Vacant + insert from theme.rs lines
121-123: insert v under k only when k is absent; a present key keeps
its value. -/
def insertIfVacant (m : String → Option TomlValue) (k : String) (v : TomlValue) :
    String → Option TomlValue :=
  fun q =>
    match m k with
    | some _ => m q
    | none => if q = k then some v else m q

/-- The schema loop of handle_set (theme.rs lines 119-124): for each
(option_name, config_option) of the schema enumeration, insert the
default value only when the option is absent from the current config. -/
def mergeDefaults (m : String → Option TomlValue)
    (schema : List (String × ConfigOption)) : String → Option TomlValue :=
  schema.foldl (fun acc p => insertIfVacant acc p.1 p.2.value) m

/-- The whole config update of handle_set (theme.rs lines 115-124):
set the name field to the caller-supplied name string, then merge the
schema defaults into the config map. -/
def applyTheme (name : String) (schema : List (String × ConfigOption))
    (c : ThemeConfig) : ThemeConfig :=
  { name := name, config := mergeDefaults c.config schema }

/-- handle_set from theme.rs lines 96-144, as explicit state passing on
the persisted ThemeConfig. The first component is the command's Result;
the second is the configuration on disk after the call: the code looks
the theme up before touching the config, so on the error path the
incoming config is returned unchanged (nothing is mutated or saved),
and on success the merged config is what save_to_file persists. -/
def handle_set (name : String) (persisted : ThemeConfig) :
    Except String Unit × ThemeConfig :=
  match get_theme name with
  | none =>
      (Except.error ("Theme " ++ name ++
        " not found. Run blogr theme list to see available themes."), persisted)
  | some theme =>
      (Except.ok (), applyTheme name theme.config_schema persisted)

/-- The active-theme test of handle_list (theme.rs line 30):
current_theme.as_ref() == Some(&info.name), i.e. exact string equality
between the project's current theme name (when a project was found and
its config loaded) and the catalog theme's name. -/
def isActive (currentTheme : Option String) (info : ThemeInfo) : Bool :=
  currentTheme == some info.name

/-- The active-theme test of handle_info (theme.rs line 79):
config.theme.name == name, i.e. exact string equality between the
project's current theme name and the query string the caller passed. -/
def infoIsActive (projectThemeName queriedName : String) : Bool :=
  projectThemeName == queriedName

/-- The accent_color option of the spec's section 8 example scenario:
default "red". -/
def accentOption : ConfigOption :=
  { value := TomlValue.str "red", description := "Accent color" }

/-- The font_size option of the spec's section 8 example scenario:
default 14. -/
def fontSizeOption : ConfigOption :=
  { value := TomlValue.int 14, description := "Font size" }

/-- The schema of the spec's section 8 example scenario, in source
order: accent_color defaults to "red", font_size defaults to 14. -/
def exampleSchema : List (String × ConfigOption) :=
  [("accent_color", accentOption), ("font_size", fontSizeOption)]

/-- The same example schema enumerated in the opposite order. -/
def exampleSchemaSwapped : List (String × ConfigOption) :=
  [("font_size", fontSizeOption), ("accent_color", accentOption)]

/-- The project config of the spec's section 8 example scenario:
theme.name "old", theme.config holding accent_color = "blue". -/
def exampleConfig : ThemeConfig :=
  { name := "old"
    config := fun k => if k = "accent_color" then some (TomlValue.str "blue") else none }

/-- Pointwise characterization of the schema merge loop: at any key, the
merged map returns the pre-existing value when there is one, and
otherwise the default of the first schema entry carrying that key. -/
theorem mergeDefaults_apply (m : String → Option TomlValue)
    (l : List (String × ConfigOption)) (k : String) :
    mergeDefaults m l k =
      match m k with
      | some v => some v
      | none => Option.map (fun p => p.2.value) (l.find? (fun p => p.1 == k)) := by
  induction l generalizing m with
  | nil =>
    cases h : m k <;> simp [mergeDefaults, h]
  | cons hd tl ih =>
    obtain ⟨k0, o0⟩ := hd
    have step : mergeDefaults m ((k0, o0) :: tl) k
        = mergeDefaults (insertIfVacant m k0 o0.value) tl k := rfl
    rw [step, ih]
    cases h0 : m k0 with
    | some v0 =>
      have h1 : insertIfVacant m k0 o0.value k = m k := by
        simp [insertIfVacant, h0]
      rw [h1]
      cases h2 : m k with
      | some v => rfl
      | none =>
        have hne : (k0 == k) = false := by
          apply beq_eq_false_iff_ne.mpr
          intro he
          rw [he, h2] at h0
          exact Option.noConfusion h0
        simp [List.find?, hne]
    | none =>
      by_cases hk : k = k0
      · subst hk
        have h1 : insertIfVacant m k o0.value k = some o0.value := by
          simp [insertIfVacant, h0]
        rw [h1, h0]
        simp [List.find?]
      · have h1 : insertIfVacant m k0 o0.value k = m k := by
          simp [insertIfVacant, h0, hk]
        rw [h1]
        cases h2 : m k with
        | some v => rfl
        | none =>
          have hne : (k0 == k) = false := beq_eq_false_iff_ne.mpr (Ne.symm hk)
          simp [List.find?, hne]

/-- In a schema with pairwise-distinct option names (as in a HashMap
enumeration), the first entry found for a present key is that key's
unique entry. -/
theorem find?_key_eq_of_mem_nodup {l : List (String × ConfigOption)} {k : String}
    {o : ConfigOption} (hmem : (k, o) ∈ l) (hnd : (l.map Prod.fst).Nodup) :
    l.find? (fun p => p.1 == k) = some (k, o) := by
  induction l with
  | nil => cases hmem
  | cons hd tl ih =>
    obtain ⟨k0, o0⟩ := hd
    simp only [List.map_cons, List.nodup_cons] at hnd
    rcases List.mem_cons.mp hmem with he | hmem2
    · cases he
      simp [List.find?]
    · have hkey : k ∈ tl.map Prod.fst :=
        List.mem_map.mpr ⟨(k, o), hmem2, rfl⟩
      have hne : (k0 == k) = false := by
        apply beq_eq_false_iff_ne.mpr
        intro he
        exact hnd.1 (he ▸ hkey)
      simp only [List.find?, hne]
      exact ih hmem2 hnd.2

/-- A key listed among a schema's option names is found by find?. -/
theorem find?_key_isSome_of_mem {l : List (String × ConfigOption)} {k : String}
    (h : k ∈ l.map Prod.fst) :
    (l.find? (fun p => p.1 == k)).isSome = true := by
  induction l with
  | nil => simp at h
  | cons hd tl ih =>
    by_cases hk : (hd.1 == k) = true
    · simp [List.find?, hk]
    · have hk2 : (hd.1 == k) = false := by
        cases hb : (hd.1 == k) with
        | true => exact absurd hb hk
        | false => rfl
      have h2 : k ∈ tl.map Prod.fst := by
        rw [List.map_cons] at h
        rcases List.mem_cons.mp h with he | h3
        · exact absurd (beq_iff_eq.mpr he.symm) hk
        · exact h3
      simp only [List.find?, hk2]
      exact ih h2

/-- find? for a key is invariant under permutation of a schema whose
option names are pairwise distinct. -/
theorem find?_key_perm {l1 l2 : List (String × ConfigOption)}
    (hp : l1.Perm l2) (hnd : (l1.map Prod.fst).Nodup) (k : String) :
    l1.find? (fun p => p.1 == k) = l2.find? (fun p => p.1 == k) := by
  induction hp with
  | nil => rfl
  | cons x hp ih =>
    simp only [List.map_cons, List.nodup_cons] at hnd
    cases hx : (x.1 == k) with
    | true => simp [List.find?, hx]
    | false =>
      simp only [List.find?, hx]
      exact ih hnd.2
  | swap x y l =>
    simp only [List.map_cons, List.nodup_cons, List.mem_cons] at hnd
    cases hy : (y.1 == k) with
    | true =>
      cases hx : (x.1 == k) with
      | true =>
        exfalso
        exact hnd.1 (Or.inl (by rw [beq_iff_eq.mp hy, beq_iff_eq.mp hx]))
      | false => simp [List.find?, hy, hx]
    | false =>
      cases hx : (x.1 == k) with
      | true => simp [List.find?, hy, hx]
      | false => simp [List.find?, hy, hx]
  | trans hp1 hp2 ih1 ih2 =>
    have hnd2 := (hp1.map Prod.fst).nodup_iff.mp hnd
    rw [ih1 hnd, ih2 hnd2]

/-- C1: the config merge of handle_set is idempotent: writing the name
field and inserting schema defaults only under absent keys, applied
twice with the same theme name and schema, yields the same config as
applying it once. Stated for every name and every schema enumeration,
which covers every theme of the registry. -/
theorem applyTheme_idempotent (name : String)
    (schema : List (String × ConfigOption)) (c : ThemeConfig) :
    applyTheme name schema (applyTheme name schema c) = applyTheme name schema c := by
  have hcfg : mergeDefaults (mergeDefaults c.config schema) schema
      = mergeDefaults c.config schema := by
    funext k
    rw [mergeDefaults_apply, mergeDefaults_apply]
    cases h : c.config k with
    | some v => rfl
    | none =>
      cases hf : Option.map (fun p => p.2.value)
          (schema.find? (fun p => p.1 == k)) with
      | some v => rfl
      | none => rfl
  show ThemeConfig.mk name (mergeDefaults (mergeDefaults c.config schema) schema)
      = ThemeConfig.mk name (mergeDefaults c.config schema)
  rw [hcfg]

/-- C2: the merge preserves every pre-existing binding: a key present in
the project's config map before the merge still maps to the same value
afterwards, whether or not it occurs in the schema; the merge never
overwrites or deletes an existing key. -/
theorem applyTheme_preserves_existing (name : String)
    (schema : List (String × ConfigOption)) (c : ThemeConfig) (k : String)
    (v : TomlValue) (h : c.config k = some v) :
    (applyTheme name schema c).config k = some v := by
  show mergeDefaults c.config schema k = some v
  rw [mergeDefaults_apply, h]

/-- Witness for C2 at the spec's example scenario: accent_color keeps
the user's "blue" after switching to the minimal-retro schema. -/
theorem applyTheme_preserves_existing_witness :
    exampleConfig.config "accent_color" = some (TomlValue.str "blue") ∧
    (applyTheme "minimal-retro" exampleSchema exampleConfig).config "accent_color"
      = some (TomlValue.str "blue") :=
  ⟨rfl, applyTheme_preserves_existing "minimal-retro" exampleSchema exampleConfig
      "accent_color" (TomlValue.str "blue") rfl⟩

/-- C3: merge postcondition: the resulting name field is the requested
theme name; every option name of the schema is present in the resulting
config map; and a schema option absent from the config before the merge
is filled with the theme's default value (for a schema enumeration with
distinct option names, as a HashMap enumeration is). -/
theorem applyTheme_fills_schema (name : String)
    (schema : List (String × ConfigOption)) (c : ThemeConfig) :
    (applyTheme name schema c).name = name ∧
    (∀ k, k ∈ schema.map Prod.fst →
      ((applyTheme name schema c).config k).isSome = true) ∧
    (∀ k o, (k, o) ∈ schema → (schema.map Prod.fst).Nodup →
      c.config k = none → (applyTheme name schema c).config k = some o.value) := by
  refine ⟨rfl, ?_, ?_⟩
  · intro k hk
    show (mergeDefaults c.config schema k).isSome = true
    rw [mergeDefaults_apply]
    have hs := find?_key_isSome_of_mem hk
    cases h : c.config k with
    | some v => rfl
    | none =>
      cases hf : schema.find? (fun p => p.1 == k) with
      | some p => rfl
      | none =>
        rw [hf] at hs
        simp at hs
  · intro k o hmem hnd hnone
    show mergeDefaults c.config schema k = some o.value
    rw [mergeDefaults_apply, hnone, find?_key_eq_of_mem_nodup hmem hnd]
    rfl

/-- Witness for C3 at the spec's example scenario: font_size is absent
before the merge and is filled with the default 14, and the name field
becomes minimal-retro. -/
theorem applyTheme_fills_schema_witness :
    exampleConfig.config "font_size" = none ∧
    (applyTheme "minimal-retro" exampleSchema exampleConfig).config "font_size"
      = some (TomlValue.int 14) ∧
    (applyTheme "minimal-retro" exampleSchema exampleConfig).name = "minimal-retro" :=
  ⟨rfl,
   (applyTheme_fills_schema "minimal-retro" exampleSchema exampleConfig).2.2
      "font_size" fontSizeOption (List.Mem.tail _ (List.Mem.head _))
      (by decide) rfl,
   (applyTheme_fills_schema "minimal-retro" exampleSchema exampleConfig).1⟩

/-- Appending templates one by one onto a bundle concatenates them after
the bundle's existing templates, in order. -/
theorem withTemplates_templates (ts l : List (String × String)) :
    (ThemeTemplates.withTemplates ⟨ts⟩ l).templates = ts ++ l := by
  induction l generalizing ts with
  | nil => simp [ThemeTemplates.withTemplates]
  | cons hd tl ih =>
    show (ThemeTemplates.withTemplates ⟨ts ++ [hd]⟩ tl).templates = ts ++ hd :: tl
    rw [ih]
    simp

/-- C8: every ThemeTemplates built by new followed by any sequence of
with_template calls iterates as the base (name, source) pair first,
followed by the added templates in registration order. -/
theorem base_template_first (base_name base_src : String)
    (added : List (String × String)) :
    ((ThemeTemplates.new base_name base_src).withTemplates added).toList
      = (base_name, base_src) :: added := by
  show (ThemeTemplates.withTemplates ⟨[(base_name, base_src)]⟩ added).templates
      = (base_name, base_src) :: added
  rw [withTemplates_templates]
  rfl

/-- C9: the merge is order-independent: two enumeration orders of the
same schema (with pairwise-distinct option names, as in a HashMap) give
identical merged configs. -/
theorem mergeDefaults_perm_invariant (m : String → Option TomlValue)
    (l1 l2 : List (String × ConfigOption)) (hp : l1.Perm l2)
    (hnd : (l1.map Prod.fst).Nodup) :
    mergeDefaults m l1 = mergeDefaults m l2 := by
  funext k
  rw [mergeDefaults_apply, mergeDefaults_apply, find?_key_perm hp hnd k]

/-- Witness for C9: the two enumeration orders of the example schema
merge to the same config. -/
theorem mergeDefaults_perm_invariant_witness :
    exampleSchema.Perm exampleSchemaSwapped ∧
    (exampleSchema.map Prod.fst).Nodup ∧
    mergeDefaults exampleConfig.config exampleSchema
      = mergeDefaults exampleConfig.config exampleSchemaSwapped :=
  ⟨List.Perm.swap ("font_size", fontSizeOption) ("accent_color", accentOption) [],
   by decide,
   mergeDefaults_perm_invariant exampleConfig.config exampleSchema exampleSchemaSwapped
     (List.Perm.swap ("font_size", fontSizeOption) ("accent_color", accentOption) [])
     (by decide)⟩

/-- C5: theme lookup is case-insensitive: get_theme compares lowercased
names, so two queries that agree after lowercasing resolve to the same
theme, and a query matching no catalog name case-insensitively returns
none (an empty result, not an error). -/
theorem get_theme_case_insensitive :
    (∀ s t : String, lowercase s = lowercase t → get_theme s = get_theme t) ∧
    (∀ s : String, (∀ th ∈ get_all_themes, lowercase th.name ≠ lowercase s) →
      get_theme s = none) := by
  constructor
  · intro s t h
    simp only [get_theme, h]
  · intro s h
    apply List.find?_eq_none.mpr
    intro th hth hb
    exact h th hth (beq_iff_eq.mp hb)

/-- Witness for C5: the three spellings Obsidian, obsidian and OBSIDIAN
resolve to the same lookup result. -/
theorem get_theme_case_insensitive_witness :
    lowercase "Obsidian" = lowercase "obsidian" ∧
    lowercase "obsidian" = lowercase "OBSIDIAN" ∧
    get_theme "Obsidian" = get_theme "obsidian" ∧
    get_theme "obsidian" = get_theme "OBSIDIAN" :=
  ⟨by decide, by decide,
   get_theme_case_insensitive.1 "Obsidian" "obsidian" (by decide),
   get_theme_case_insensitive.1 "obsidian" "OBSIDIAN" (by decide)⟩

/-- C4: atomicity on unknown theme: when no catalog theme matches the
requested name case-insensitively, handle_set returns the
theme-not-found error and the persisted config is unchanged — no key
inserted, no name update, nothing persisted. -/
theorem handle_set_unknown_atomic (name : String) (c : ThemeConfig)
    (h : ∀ th ∈ get_all_themes, lowercase th.name ≠ lowercase name) :
    (handle_set name c).2 = c ∧
    (handle_set name c).1 = Except.error ("Theme " ++ name ++
      " not found. Run blogr theme list to see available themes.") := by
  have hnone : get_theme name = none := by
    apply List.find?_eq_none.mpr
    intro th hth hb
    exact h th hth (beq_iff_eq.mp hb)
  unfold handle_set
  rw [hnone]
  exact ⟨rfl, rfl⟩

/-- Witness for C4 at a concrete unknown name. -/
theorem handle_set_unknown_atomic_witness :
    (∀ th ∈ get_all_themes, lowercase th.name ≠ lowercase "no-such-theme") ∧
    (handle_set "no-such-theme" exampleConfig).2 = exampleConfig :=
  ⟨by decide,
   (handle_set_unknown_atomic "no-such-theme" exampleConfig (by decide)).1⟩

/-- C7: registry-wide name uniqueness: the lowercased names of the
catalog returned by get_all_themes are pairwise distinct, i.e. no two
registered themes share a name under case-insensitive comparison. -/
theorem themes_have_unique_names :
    (get_all_themes.map (fun th => lowercase th.name)).Nodup := by
  decide

/-- C10: handle_set stores the caller-supplied name string verbatim in
the config's name field even though the lookup matched it
case-insensitively; for the query OBSIDIAN the persisted name OBSIDIAN
differs from the matched theme's canonical catalog name. -/
theorem handle_set_verbatim_name :
    (∀ name c th, get_theme name = some th → (handle_set name c).2.name = name) ∧
    get_theme "OBSIDIAN" = some obsidianTheme ∧
    obsidianTheme.name ≠ "OBSIDIAN" := by
  refine ⟨?_, ?_, ?_⟩
  · intro name c th h
    unfold handle_set
    rw [h]
    rfl
  · rfl
  · decide

/-- Witness for C10: setting theme OBSIDIAN persists the name OBSIDIAN,
not the catalog's canonical spelling of the matched theme. -/
theorem handle_set_verbatim_name_witness :
    (handle_set "OBSIDIAN" exampleConfig).2.name = "OBSIDIAN" :=
  handle_set_verbatim_name.1 "OBSIDIAN" exampleConfig obsidianTheme
    handle_set_verbatim_name.2.1

/-- Counterexample to C6 as stated: the project name OBSIDIAN equals the
catalog theme name obsidian case-insensitively, yet handle_list does not
mark the theme active, because theme.rs line 30 compares the two names
with exact string equality. -/
theorem isActive_not_case_insensitive :
    lowercase obsidianTheme.name = lowercase "OBSIDIAN" ∧
    obsidianTheme ∈ get_all_themes ∧
    isActive (some "OBSIDIAN") obsidianTheme = false :=
  ⟨by decide, List.Mem.tail _ (List.Mem.head _), by decide⟩

/-- C6 amended: active marking uses exact (case-sensitive) string
equality: with no project found no theme is marked active, and when the
project's theme name equals a catalog theme name in the exact same
letter case, exactly that one theme is marked active. -/
theorem isActive_exact_match :
    get_all_themes.filter (fun th => isActive none th) = [] ∧
    (∀ th, th ∈ get_all_themes →
      (get_all_themes.filter (fun u => isActive (some th.name) u)).map ThemeInfo.name
        = [th.name]) := by
  constructor
  · rfl
  · intro th hth
    simp only [get_all_themes, List.mem_cons, List.not_mem_nil, or_false] at hth
    rcases hth with h | h | h | h | h | h | h | h <;> subst h <;> decide

/-- Witness for the amended C6: with the project's theme name exactly
obsidian, only the obsidian theme is marked active. -/
theorem isActive_exact_match_witness :
    (get_all_themes.filter
        (fun u => isActive (some obsidianTheme.name) u)).map ThemeInfo.name
      = [obsidianTheme.name] :=
  isActive_exact_match.2 obsidianTheme (List.Mem.tail _ (List.Mem.head _))
